import Mathlib

/-!
Verification of the mode-basis export of `GlaoErrorBudget`.

The repository's script `gerpy/export.py` loads a numeric archive, builds
seven `Segment` records wrapped in per-unit variants `ASM__S1 .. ASM__S7`,
and writes their bincode serialization to files `M2S1.bin .. M2S7.bin`.
The `gerpy` bindings (the `Segment` dataclass, the `ASM__Si` variant
classes and `bincode_serialize` / deserialization) are not part of the
provided sources, so the binary encoding is modelled from the spec's
schema description; the script itself is embedded from the source.

Bytes are modelled as natural numbers (each produced byte is `< 256` by
construction); 64-bit floats are modelled by their IEEE-754 bit pattern,
a natural number `< 2 ^ 64`, which is exactly what the byte-level
encoding transports.
-/

namespace Glao

/-- Modelled from the spec: the byte encoding of a fixed-width 64-bit
little-endian unsigned integer, used for sequence length markers and for
`n_mode` ("length-prefixed sequences, fixed-width little-endian numeric
fields, no padding"). The encoder itself is not in the provided sources. -/
def u64LE (n : Nat) : List Nat :=
  [n % 256, n / 256 % 256, n / 256 ^ 2 % 256, n / 256 ^ 3 % 256,
   n / 256 ^ 4 % 256, n / 256 ^ 5 % 256, n / 256 ^ 6 % 256, n / 256 ^ 7 % 256]

/-- Modelled from the spec: the byte encoding of the 32-bit little-endian
variant discriminant ("a discriminant integer identifying which of the 7
units this record represents"). -/
def u32LE (n : Nat) : List Nat :=
  [n % 256, n / 256 % 256, n / 256 ^ 2 % 256, n / 256 ^ 3 % 256]

/-- Modelled from the spec: a 64-bit float is written as its 8-byte
little-endian IEEE-754 bit pattern. Floats are carried around as their
bit pattern (a natural number below `2 ^ 64`). -/
def f64LE (bits : Nat) : List Nat := u64LE bits

/-- Modelled from the spec: a boolean is written as a single byte, `1`
for true and `0` for false. -/
def boolByte (b : Bool) : Nat := if b then 1 else 0

/-- Reads a 64-bit little-endian unsigned integer from the front of a
byte list, returning the value and the remaining bytes. -/
def readU64 : List Nat → Option (Nat × List Nat)
  | b0 :: b1 :: b2 :: b3 :: b4 :: b5 :: b6 :: b7 :: rest =>
      some (b0 + 256 * (b1 + 256 * (b2 + 256 * (b3 + 256 * (b4 + 256 *
        (b5 + 256 * (b6 + 256 * b7)))))), rest)
  | _ => none

/-- Reads a 32-bit little-endian unsigned integer from the front of a
byte list. -/
def readU32 : List Nat → Option (Nat × List Nat)
  | b0 :: b1 :: b2 :: b3 :: rest =>
      some (b0 + 256 * (b1 + 256 * (b2 + 256 * b3)), rest)
  | _ => none

/-- Reads `count` 64-bit float bit patterns from the front of a byte
list. -/
def readF64s : Nat → List Nat → Option (List Nat × List Nat)
  | 0, bs => some ([], bs)
  | count + 1, bs => do
      let (x, bs₁) ← readU64 bs
      let (xs, bs₂) ← readF64s count bs₁
      pure (x :: xs, bs₂)

/-- Reads `count` single-byte booleans from the front of a byte list; a
byte other than `0` or `1` is a decoding error. -/
def readBools : Nat → List Nat → Option (List Bool × List Nat)
  | 0, bs => some ([], bs)
  | count + 1, b :: bs => do
      let v ← if b = 0 then some false else if b = 1 then some true else none
      let (vs, bs₁) ← readBools count bs
      pure (v :: vs, bs₁)
  | _ + 1, [] => none

/-- The record written by the export script: `Segment(modes=…, n_mode=…,
mask=…)`. `modes` holds the IEEE-754 bit patterns of the 64-bit floats. -/
structure Segment where
  modes : List Nat
  n_mode : Nat
  mask : List Bool
deriving DecidableEq

/-- A `Segment` is valid when the spec's shape invariant holds
(`n_mode` positive and dividing `modes.length`, `mask` of the implied
point count) and all numeric fields fit their 64-bit wire width. -/
def SegValid (s : Segment) : Prop :=
  0 < s.n_mode ∧
  s.modes.length % s.n_mode = 0 ∧
  s.mask.length = s.modes.length / s.n_mode ∧
  (∀ x ∈ s.modes, x < 2 ^ 64) ∧
  s.n_mode < 2 ^ 64 ∧
  s.modes.length < 2 ^ 64 ∧
  s.mask.length < 2 ^ 64

instance (s : Segment) : Decidable (SegValid s) := by
  unfold SegValid; infer_instance

/-- Modelled from the spec: the record encoder (`bincode_serialize` of
the `gerpy` bindings, which are not in the provided sources). Layout per
the spec: length-prefixed sequence of 64-bit floats for `modes`, a
fixed-width unsigned integer for `n_mode`, a length-prefixed sequence of
single-byte booleans for `mask`; it fails if `n_mode` is zero, if
`modes.length` is not evenly divisible by `n_mode`, or if `mask.length`
does not equal the implied point count. -/
def encodeSegment (s : Segment) : Except String (List Nat) :=
  if s.n_mode = 0 then .error "n_mode is zero"
  else if s.modes.length % s.n_mode ≠ 0 then
    .error "modes length not divisible by n_mode"
  else if s.mask.length ≠ s.modes.length / s.n_mode then
    .error "mask length differs from the implied point count"
  else
    .ok (u64LE s.modes.length ++ (s.modes.map f64LE).flatten ++
      u64LE s.n_mode ++ u64LE s.mask.length ++ s.mask.map boolByte)

/-- Modelled from the spec: the record decoder for the same schema;
reads the length-prefixed `modes`, the fixed-width `n_mode`, the
length-prefixed `mask`, and requires that every input byte is consumed. -/
def decodeSegment (bs : List Nat) : Except String Segment :=
  match readU64 bs with
  | none => .error "truncated modes length"
  | some (nModes, bs₁) =>
    match readF64s nModes bs₁ with
    | none => .error "truncated modes"
    | some (modes, bs₂) =>
      match readU64 bs₂ with
      | none => .error "truncated n_mode"
      | some (n_mode, bs₃) =>
        match readU64 bs₃ with
        | none => .error "truncated mask length"
        | some (nMask, bs₄) =>
          match readBools nMask bs₄ with
          | none => .error "bad mask"
          | some (mask, bs₅) =>
            if bs₅ = [] then .ok ⟨modes, n_mode, mask⟩
            else .error "trailing bytes"

/-- The tagged-variant envelope `ASM__S1 .. ASM__S7` used by the script:
one variant per physical unit index 1..7, each carrying one `Segment`
(the variant tag itself carries no further data). -/
inductive ASM where
  | S1 (value : Segment)
  | S2 (value : Segment)
  | S3 (value : Segment)
  | S4 (value : Segment)
  | S5 (value : Segment)
  | S6 (value : Segment)
  | S7 (value : Segment)
deriving DecidableEq

/-- The `Segment` payload carried by a variant. -/
def ASM.segment : ASM → Segment
  | .S1 s | .S2 s | .S3 s | .S4 s | .S5 s | .S6 s | .S7 s => s

/-- The 0-based discriminant of a variant, in declaration order
(`ASM__S1 ↦ 0`, …, `ASM__S7 ↦ 6`). -/
def ASM.tag : ASM → Nat
  | .S1 _ => 0
  | .S2 _ => 1
  | .S3 _ => 2
  | .S4 _ => 3
  | .S5 _ => 4
  | .S6 _ => 5
  | .S7 _ => 6

/-- The variant for 1-based unit index `i` (`1 ↦ ASM__S1`, …,
`7 ↦ ASM__S7`), wrapping a given segment. -/
def unitVariant (i : Nat) (s : Segment) : ASM :=
  match i with
  | 1 => .S1 s
  | 2 => .S2 s
  | 3 => .S3 s
  | 4 => .S4 s
  | 5 => .S5 s
  | 6 => .S6 s
  | _ => .S7 s

/-- Modelled from the spec: encoding of the tagged-variant envelope — a
discriminant integer identifying the unit, then the encoded record. -/
def encodeASM (a : ASM) : Except String (List Nat) :=
  (encodeSegment a.segment).map (fun bs => u32LE a.tag ++ bs)

/-- Modelled from the spec: decoding of the tagged-variant envelope. -/
def decodeASM (bs : List Nat) : Except String ASM :=
  match readU32 bs with
  | none => .error "truncated discriminant"
  | some (t, bs₁) =>
    match decodeSegment bs₁ with
    | .error e => .error e
    | .ok s =>
      if t < 7 then .ok (unitVariant (t + 1) s)
      else .error "unknown variant"

/-- Fortran-order (column-major) flattening of a `p × m` matrix given by
its entry function, as performed by `flatten(order='F')` in the script:
the first (row) index varies fastest, so element `k` of the output is
`A (k % p) (k / p)`. -/
def fortranFlatten (p m : Nat) (A : Nat → Nat → Nat) : List Nat :=
  (List.range (p * m)).map (fun k => A (k % p) (k / p))

/-- Column-major order as the spec words it: read down each column
before moving to the next — column `j` is `A 0 j, A 1 j, …`, and the
columns are concatenated in order. -/
def colMajorOrder (p m : Nat) (A : Nat → Nat → Nat) : List Nat :=
  ((List.range m).map (fun j => (List.range p).map (fun i => A i j))).flatten

/-- The archive loaded by the script (`segKLmat.npz`): a per-unit stack
of `nPoints × nModesActual` mode matrices `KL` (entries are float bit
patterns, indexed unit/row/column) and a per-unit mask of `nPoints`
booleans. `nUnits` is the extent of the leading axis. -/
structure Archive where
  nUnits : Nat
  nPoints : Nat
  nModesActual : Nat
  KL : Nat → Nat → Nat → Nat
  mask : Nat → Nat → Bool

/-- The record the script builds for archive index `id`:
`Segment(modes=data['KL'][id].flatten(order='F').tolist(), n_mode=500,
mask=data['mask'][id,:].flatten().tolist())`. -/
def buildSegment (a : Archive) (id : Nat) : Segment :=
  { modes := fortranFlatten a.nPoints a.nModesActual (a.KL id)
    n_mode := 500
    mask := (List.range a.nPoints).map (a.mask id) }

/-- The list `segs = [s1,…,s7]` of the script, with
`s1 = ASM__S1(value=Segment(..id 0..))` through
`s7 = ASM__S7(value=Segment(..id 6..))`. -/
def segs (a : Archive) : List ASM :=
  [.S1 (buildSegment a 0), .S2 (buildSegment a 1), .S3 (buildSegment a 2),
   .S4 (buildSegment a 3), .S5 (buildSegment a 4), .S6 (buildSegment a 5),
   .S7 (buildSegment a 6)]

/-- The output file name of loop iteration `i` (0-based):
`f"M2S{i+1}.bin"`. -/
def outputName (i : Nat) : String :=
  "M2S" ++ toString (i + 1) ++ ".bin"

/-- The data flow of the script's write loop: for `i in range(7)` the
file `M2S{i+1}.bin` receives `segs[i].bincode_serialize()`. Each entry
pairs the file name with the serialization result for that unit. -/
def scriptOutputs (a : Archive) : List (String × Except String (List Nat)) :=
  (List.range 7).map (fun i => (outputName i, encodeASM ((segs a).getD i (.S1 (buildSegment a 0)))))

/-- File-handle events of the write loop: opening, writing and closing
the output file of iteration `i`. -/
inductive FEvent where
  | openF (i : Nat)
  | writeF (i : Nat)
  | closeF (i : Nat)
deriving DecidableEq

/-- The events of one loop iteration. The body
`with open(f"M2S{i+1}.bin","wb") as f: f.write(…)` is embedded as
open–write–close, per the context-manager guarantee that the file is
closed when the `with` block is left. -/
def iterEvents (i : Nat) : List FEvent :=
  [.openF i, .writeF i, .closeF i]

/-- The file-handle trace of the whole write loop, `for i in range(7)`. -/
def writeLoopTrace : List FEvent :=
  ((List.range 7).map iterEvents).flatten

/-- One step of the handle tracker: an open pushes the file index, a
close removes it, a write leaves the set unchanged. -/
def handleStep (hs : List Nat) : FEvent → List Nat
  | .openF i => i :: hs
  | .writeF _ => hs
  | .closeF i => hs.erase i

/-- The set (as a list) of file indices whose handle is open after a
sequence of events, starting from no open handle. -/
def handlesAfter (es : List FEvent) : List Nat :=
  es.foldl handleStep []

/-- Whether an event touches the file of iteration `i`. -/
def touches (i : Nat) : FEvent → Bool
  | .openF j | .writeF j | .closeF j => j = i

/-- The step-level view of the whole script, for ordering claims: the
archive load, the seven record constructions `s1 .. s7`, then the seven
file writes. -/
inductive ScriptStep where
  | load
  | build (id : Nat)
  | writeFile (i : Nat)

/-- Whether a step is a file write. -/
def ScriptStep.isWrite : ScriptStep → Bool
  | .writeFile _ => true
  | _ => false

/-- The state threaded through the script: the loaded archive, the
constructed records, and the files written so far. -/
structure ScriptState where
  archive : Option Archive
  built : List ASM
  files : List (String × List Nat)

/-- The state before the script runs. -/
def initState : ScriptState := ⟨none, [], []⟩

/-- One step of the script, in an environment `env` giving the result of
`np.load` (`none` when loading raises). `build id` is
`ASM__S(id+1)(value=Segment(…))`, which raises when the archive has no
unit `id`; `writeFile i` serializes `segs[i]` and writes the blob. -/
def execStep (env : Option Archive) (st : ScriptState) :
    ScriptStep → Except String ScriptState
  | .load =>
    match env with
    | some a => .ok { st with archive := some a }
    | none => .error "np.load failed"
  | .build id =>
    match st.archive with
    | some a =>
      if id < a.nUnits then
        .ok { st with built := st.built ++ [unitVariant (id + 1) (buildSegment a id)] }
      else .error "IndexError"
    | none => .error "archive not loaded"
  | .writeFile i =>
    match st.built.get? i with
    | some s =>
      match encodeASM s with
      | .ok bs => .ok { st with files := st.files ++ [(outputName i, bs)] }
      | .error e => .error e
    | none => .error "IndexError"

/-- Runs a list of steps with fail-stop semantics: on the first error the
remaining steps are skipped and the state reached so far is returned
together with the error. -/
def runSteps (env : Option Archive) : List ScriptStep → ScriptState →
    ScriptState × Option String
  | [], st => (st, none)
  | s :: rest, st =>
    match execStep env st s with
    | .ok st₁ => runSteps env rest st₁
    | .error e => (st, some e)

/-- The construction phase of the script: the archive load followed by
the seven record constructions (source lines 4–18). -/
def constructionSteps : List ScriptStep :=
  .load :: (List.range 7).map .build

/-- The write phase of the script: the loop over the seven output files
(source lines 21–23). -/
def writePhaseSteps : List ScriptStep :=
  (List.range 7).map .writeFile

/-- The whole script: every record is constructed before any file is
written. -/
def scriptSteps : List ScriptStep :=
  constructionSteps ++ writePhaseSteps

lemma readU64_u64LE (n : Nat) (rest : List Nat) :
    readU64 (u64LE n ++ rest) = some (n % 2 ^ 64, rest) := by
  simp only [u64LE, readU64, List.cons_append, List.nil_append]
  norm_num
  omega

lemma readU64_u64LE_of_lt (n : Nat) (rest : List Nat) (h : n < 2 ^ 64) :
    readU64 (u64LE n ++ rest) = some (n, rest) := by
  rw [readU64_u64LE, Nat.mod_eq_of_lt h]

lemma readU32_u32LE (n : Nat) (rest : List Nat) :
    readU32 (u32LE n ++ rest) = some (n % 2 ^ 32, rest) := by
  simp only [u32LE, readU32, List.cons_append, List.nil_append]
  norm_num
  omega

lemma readU32_u32LE_of_lt (n : Nat) (rest : List Nat) (h : n < 2 ^ 32) :
    readU32 (u32LE n ++ rest) = some (n, rest) := by
  rw [readU32_u32LE, Nat.mod_eq_of_lt h]

lemma readF64s_encoded (xs : List Nat) (hx : ∀ x ∈ xs, x < 2 ^ 64)
    (rest : List Nat) :
    readF64s xs.length ((xs.map f64LE).flatten ++ rest) = some (xs, rest) := by
  induction xs with
  | nil => simp [readF64s]
  | cons x xs ih =>
    have hx0 : x < 2 ^ 64 := hx x (by simp)
    have hxs : ∀ y ∈ xs, y < 2 ^ 64 := fun y hy => hx y (by simp [hy])
    simp only [List.map_cons, List.flatten_cons, List.length_cons,
      List.append_assoc, readF64s, f64LE]
    rw [readU64_u64LE_of_lt x _ hx0]
    simp [ih hxs]

lemma readBools_encoded (ms : List Bool) (rest : List Nat) :
    readBools ms.length (ms.map boolByte ++ rest) = some (ms, rest) := by
  induction ms with
  | nil => simp [readBools]
  | cons m ms ih =>
    cases m <;> simp [readBools, boolByte, ih]

lemma encodeSegment_of_valid (s : Segment) (h : SegValid s) :
    encodeSegment s =
      .ok (u64LE s.modes.length ++ (s.modes.map f64LE).flatten ++
        u64LE s.n_mode ++ u64LE s.mask.length ++ s.mask.map boolByte) := by
  obtain ⟨h0, h1, h2, -⟩ := h
  rw [encodeSegment, if_neg (by omega), if_neg (by simp [h1]), if_neg (by simp [h2])]

lemma decodeSegment_encoded (s : Segment)
    (hm : ∀ x ∈ s.modes, x < 2 ^ 64) (hn : s.n_mode < 2 ^ 64)
    (hlm : s.modes.length < 2 ^ 64) (hlk : s.mask.length < 2 ^ 64) :
    decodeSegment (u64LE s.modes.length ++ (s.modes.map f64LE).flatten ++
      u64LE s.n_mode ++ u64LE s.mask.length ++ s.mask.map boolByte) =
      .ok s := by
  have hb := readBools_encoded s.mask []
  rw [List.append_nil] at hb
  simp only [decodeSegment, List.append_assoc,
    readU64_u64LE_of_lt _ _ hlm, readF64s_encoded s.modes hm,
    readU64_u64LE_of_lt _ _ hn, readU64_u64LE_of_lt _ _ hlk, hb,
    if_true]

lemma roundTripSegment (s : Segment) (h : SegValid s) :
    ∃ bs, encodeSegment s = .ok bs ∧ decodeSegment bs = .ok s := by
  have he := encodeSegment_of_valid s h
  obtain ⟨-, -, -, hm, hn, hlm, hlk⟩ := h
  exact ⟨_, he, decodeSegment_encoded s hm hn hlm hlk⟩

lemma ASM.tag_lt (a : ASM) : a.tag < 7 := by
  cases a <;> simp [ASM.tag]

lemma unitVariant_tag_segment (a : ASM) :
    unitVariant (a.tag + 1) a.segment = a := by
  cases a <;> rfl

lemma roundTripASM (a : ASM) (h : SegValid a.segment) :
    ∃ bs, encodeASM a = .ok bs ∧ decodeASM bs = .ok a := by
  obtain ⟨bs, he, hd⟩ := roundTripSegment a.segment h
  refine ⟨u32LE a.tag ++ bs, ?_, ?_⟩
  · rw [encodeASM, he]; rfl
  · have h7 : a.tag < 2 ^ 32 := lt_trans a.tag_lt (by norm_num)
    simp only [decodeASM, readU32_u32LE_of_lt a.tag bs h7, hd,
      if_pos a.tag_lt, unitVariant_tag_segment]

lemma fortranFlatten_succ (p m : Nat) (A : Nat → Nat → Nat) :
    fortranFlatten p (m + 1) A =
      fortranFlatten p m A ++ (List.range p).map (fun i => A i m) := by
  unfold fortranFlatten
  rw [Nat.mul_succ, List.range_add, List.map_append, List.map_map]
  congr 1
  apply List.map_congr_left
  intro i hi
  rw [List.mem_range] at hi
  have h1 : (p * m + i) % p = i := by
    rw [Nat.mul_add_mod, Nat.mod_eq_of_lt hi]
  have h2 : (p * m + i) / p = m := by
    rw [Nat.mul_add_div (by omega : 0 < p), Nat.div_eq_of_lt hi, Nat.add_zero]
  simp [Function.comp, h1, h2]

lemma fortranFlatten_eq_colMajorOrder (p m : Nat) (A : Nat → Nat → Nat) :
    fortranFlatten p m A = colMajorOrder p m A := by
  induction m with
  | zero => simp [fortranFlatten, colMajorOrder]
  | succ m ih =>
    rw [fortranFlatten_succ, ih, colMajorOrder, colMajorOrder,
      List.range_succ, List.map_append, List.flatten_append]
    simp

lemma fortranFlatten_length (p m : Nat) (A : Nat → Nat → Nat) :
    (fortranFlatten p m A).length = p * m := by
  simp [fortranFlatten]

lemma runSteps_append_error (env : Option Archive) (l₁ l₂ : List ScriptStep)
    (st st₁ : ScriptState) (e : String)
    (h : runSteps env l₁ st = (st₁, some e)) :
    runSteps env (l₁ ++ l₂) st = (st₁, some e) := by
  induction l₁ generalizing st with
  | nil => simp [runSteps] at h
  | cons s rest ih =>
    rw [List.cons_append, runSteps]
    rw [runSteps] at h
    cases hx : execStep env st s with
    | ok st' => rw [hx] at h; exact ih st' h
    | error e' => rw [hx] at h; exact h

lemma execStep_nonwrite_files (env : Option Archive) (st st₁ : ScriptState)
    (s : ScriptStep) (hs : s.isWrite = false)
    (h : execStep env st s = .ok st₁) : st₁.files = st.files := by
  cases s with
  | load =>
    cases env with
    | some a => rw [execStep] at h; cases h; rfl
    | none => rw [execStep] at h; cases h
  | build id =>
    cases ha : st.archive with
    | some a =>
      simp only [execStep, ha] at h
      split at h
      · injection h with h'
        rw [← h']
      · exact absurd h (by simp)
    | none => simp [execStep, ha] at h
  | writeFile i => simp [ScriptStep.isWrite] at hs

lemma runSteps_nonwrite_files (env : Option Archive) (l : List ScriptStep)
    (st : ScriptState) (h : ∀ s ∈ l, s.isWrite = false) :
    ((runSteps env l st).1).files = st.files := by
  induction l generalizing st with
  | nil => rfl
  | cons s rest ih =>
    have hs : s.isWrite = false := h s (List.mem_cons_self s rest)
    have hrest : ∀ t ∈ rest, t.isWrite = false :=
      fun t ht => h t (List.mem_cons_of_mem s ht)
    rw [runSteps]
    cases hx : execStep env st s with
    | ok st₁ =>
      rw [ih st₁ hrest, execStep_nonwrite_files env st st₁ s hs hx]
    | error e => rfl

lemma constructionSteps_nonwrite : ∀ s ∈ constructionSteps, s.isWrite = false := by
  intro s hs
  rw [constructionSteps] at hs
  rcases List.mem_cons.mp hs with h | h
  · rw [h]; rfl
  · obtain ⟨id, -, rfl⟩ := List.mem_map.mp h
    rfl

lemma unitVariant_segment (i : Nat) (s : Segment) :
    (unitVariant i s).segment = s := by
  unfold unitVariant
  split <;> rfl

lemma segs_getD (a : Archive) (i : Nat) (hi : i < 7) :
    (segs a).getD i (.S1 (buildSegment a 0)) =
      unitVariant (i + 1) (buildSegment a i) := by
  interval_cases i <;> rfl

lemma buildSegment_modes_length (a : Archive) (id : Nat) :
    (buildSegment a id).modes.length = a.nPoints * a.nModesActual := by
  simp [buildSegment, fortranFlatten]

lemma buildSegment_mask_length (a : Archive) (id : Nat) :
    (buildSegment a id).mask.length = a.nPoints := by
  simp [buildSegment]

lemma buildSegment_modes_lt (a : Archive) (id : Nat)
    (hKL : ∀ u i j, a.KL u i j < 2 ^ 64) :
    ∀ x ∈ (buildSegment a id).modes, x < 2 ^ 64 := by
  intro x hx
  simp only [buildSegment, fortranFlatten, List.mem_map] at hx
  obtain ⟨k, -, rfl⟩ := hx
  exact hKL id _ _

/-- A concrete archive with the batch-scenario shapes: 7 units, 100
points, 500 modes, zero-filled data. -/
def witnessArchive : Archive :=
  ⟨7, 100, 500, fun _ _ _ => 0, fun _ _ => true⟩

/-- A concrete archive whose mode matrices have a mismatched trailing
dimension: each unit's matrix is 1 × 3, so `modes.length = 3` is not
divisible by the declared `n_mode = 500`. -/
def badArchive : Archive :=
  ⟨7, 1, 3, fun _ _ _ => 0, fun _ _ => true⟩

/-- IEEE-754 bit pattern of the 64-bit float `1.0`. -/
def fbitsOne : Nat := 0x3FF0000000000000

/-- IEEE-754 bit pattern of the 64-bit float `2.0`. -/
def fbitsTwo : Nat := 0x4000000000000000

/-- IEEE-754 bit pattern of the 64-bit float `3.0`. -/
def fbitsThree : Nat := 0x4008000000000000

/-- IEEE-754 bit pattern of the 64-bit float `4.0`. -/
def fbitsFour : Nat := 0x4010000000000000

/-- Claim C1: for every valid `ModeBasisRecord` (shape invariant holds
and the numeric fields fit their 64-bit wire width), encoding succeeds
and decoding the produced bytes with the same schema reconstructs an
equal record: `decode (encode r) = r`. -/
theorem claim_roundtrip (s : Segment) (h : SegValid s) :
    ∃ bs, encodeSegment s = .ok bs ∧ decodeSegment bs = .ok s :=
  roundTripSegment s h

/-- Witness for C1 at the concrete valid record
`⟨modes = [1, 2], n_mode = 2, mask = [true]⟩`. -/
theorem claim_roundtrip_witness :
    SegValid ⟨[1, 2], 2, [true]⟩ ∧
      ∃ bs, encodeSegment ⟨[1, 2], 2, [true]⟩ = .ok bs ∧
        decodeSegment bs = .ok ⟨[1, 2], 2, [true]⟩ :=
  ⟨by decide, claim_roundtrip ⟨[1, 2], 2, [true]⟩ (by decide)⟩

/-- Claim C2: the encoder is deterministic — it is a pure function of
the record, so two invocations on equal records yield byte-identical
output, both for the bare record and for the tagged-variant envelope. -/
theorem claim_deterministic (r₁ r₂ : Segment) (h : r₁ = r₂) :
    encodeSegment r₁ = encodeSegment r₂ ∧
      ∀ i, encodeASM (unitVariant i r₁) = encodeASM (unitVariant i r₂) := by
  rw [h]
  exact ⟨rfl, fun _ => rfl⟩

/-- Witness for C2 at the concrete record
`⟨modes = [0], n_mode = 1, mask = [true]⟩`. -/
theorem claim_deterministic_witness :
    encodeSegment ⟨[0], 1, [true]⟩ = encodeSegment ⟨[0], 1, [true]⟩ ∧
      ∀ i, encodeASM (unitVariant i ⟨[0], 1, [true]⟩) =
        encodeASM (unitVariant i ⟨[0], 1, [true]⟩) :=
  claim_deterministic ⟨[0], 1, [true]⟩ ⟨[0], 1, [true]⟩ rfl

/-- Claim C3: for every record violating the shape invariant — `n_mode`
zero, or `modes.length` not divisible by `n_mode`, or `mask.length`
different from the implied point count — encoding fails with an error
rather than producing bytes. -/
theorem claim_shape_errors (s : Segment)
    (h : s.n_mode = 0 ∨ s.modes.length % s.n_mode ≠ 0 ∨
      s.mask.length ≠ s.modes.length / s.n_mode) :
    ∃ e, encodeSegment s = .error e := by
  rcases h with h | h | h
  · exact ⟨_, by rw [encodeSegment, if_pos h]⟩
  · by_cases h0 : s.n_mode = 0
    · exact ⟨_, by rw [encodeSegment, if_pos h0]⟩
    · exact ⟨_, by rw [encodeSegment, if_neg h0, if_pos h]⟩
  · by_cases h0 : s.n_mode = 0
    · exact ⟨_, by rw [encodeSegment, if_pos h0]⟩
    · by_cases h1 : s.modes.length % s.n_mode ≠ 0
      · exact ⟨_, by rw [encodeSegment, if_neg h0, if_pos h1]⟩
      · exact ⟨_, by rw [encodeSegment, if_neg h0, if_neg h1, if_pos h]⟩

/-- Witness for C3 at the concrete invalid record
`⟨modes = [1], n_mode = 0, mask = []⟩`. -/
theorem claim_shape_errors_witness :
    ((⟨[1], 0, []⟩ : Segment).n_mode = 0 ∨
      (⟨[1], 0, []⟩ : Segment).modes.length % (⟨[1], 0, []⟩ : Segment).n_mode ≠ 0 ∨
      (⟨[1], 0, []⟩ : Segment).mask.length ≠
        (⟨[1], 0, []⟩ : Segment).modes.length / (⟨[1], 0, []⟩ : Segment).n_mode) ∧
      ∃ e, encodeSegment ⟨[1], 0, []⟩ = .error e :=
  ⟨by decide, claim_shape_errors ⟨[1], 0, []⟩ (by decide)⟩

/-- Claim C4: the record with `n_mode = 2`, `modes = [1.0, 2.0, 3.0,
4.0]` and `mask = [true, false]` encodes to exactly the 4-length-prefix,
the four floats as 8-byte little-endian, `n_mode = 2` fixed-width, the
2-length-prefix and the bytes `[1, 0]`, with no padding, and those bytes
decode back to the identical record. -/
theorem claim_concrete_bytes :
    encodeSegment ⟨[fbitsOne, fbitsTwo, fbitsThree, fbitsFour], 2, [true, false]⟩ =
      .ok [4, 0, 0, 0, 0, 0, 0, 0,
           0, 0, 0, 0, 0, 0, 240, 63,
           0, 0, 0, 0, 0, 0, 0, 64,
           0, 0, 0, 0, 0, 0, 8, 64,
           0, 0, 0, 0, 0, 0, 16, 64,
           2, 0, 0, 0, 0, 0, 0, 0,
           2, 0, 0, 0, 0, 0, 0, 0,
           1, 0] ∧
    decodeSegment
        [4, 0, 0, 0, 0, 0, 0, 0,
         0, 0, 0, 0, 0, 0, 240, 63,
         0, 0, 0, 0, 0, 0, 0, 64,
         0, 0, 0, 0, 0, 0, 8, 64,
         0, 0, 0, 0, 0, 0, 16, 64,
         2, 0, 0, 0, 0, 0, 0, 0,
         2, 0, 0, 0, 0, 0, 0, 0,
         1, 0] =
      .ok ⟨[fbitsOne, fbitsTwo, fbitsThree, fbitsFour], 2, [true, false]⟩ :=
  ⟨rfl, rfl⟩

/-- Claim C5: the `modes` field the script builds for any unit is the
unit's 2D mode matrix flattened in column-major order (reading down each
column before moving to the next), and on the known 2 × 3 matrix with
rows `[0, 1, 2]` and `[10, 11, 12]` the flattening yields the expected
column-major sequence `[0, 10, 1, 11, 2, 12]`. -/
theorem claim_column_major :
    (∀ (a : Archive) (id : Nat),
      (buildSegment a id).modes =
        colMajorOrder a.nPoints a.nModesActual (a.KL id)) ∧
    fortranFlatten 2 3 (fun i j => 10 * i + j) = [0, 10, 1, 11, 2, 12] :=
  ⟨fun a id => fortranFlatten_eq_colMajorOrder a.nPoints a.nModesActual (a.KL id),
   by decide⟩

lemma buildSegment_n_mode (a : Archive) (id : Nat) :
    (buildSegment a id).n_mode = 500 := rfl

/-- Claim C6: for an archive whose `KL` array has shape (7, 100, 500)
(so 100 points and 500 modes per unit, entries being 64-bit float
patterns) the script produces exactly 7 outputs, and every output's blob
decodes to a record with `modes.length = 50000`, `n_mode = 500` and
`mask.length = 100`. -/
theorem claim_batch (a : Archive)
    (hp : a.nPoints = 100) (hm : a.nModesActual = 500)
    (hKL : ∀ u i j, a.KL u i j < 2 ^ 64) :
    (scriptOutputs a).length = 7 ∧
    ∀ entry ∈ scriptOutputs a, ∃ bs s,
      entry.2 = .ok bs ∧ decodeASM bs = .ok s ∧
      s.segment.modes.length = 50000 ∧ s.segment.n_mode = 500 ∧
      s.segment.mask.length = 100 := by
  constructor
  · simp [scriptOutputs]
  · intro entry hentry
    simp only [scriptOutputs, List.mem_map, List.mem_range] at hentry
    obtain ⟨i, hi, rfl⟩ := hentry
    have hml : (buildSegment a i).modes.length = 50000 := by
      rw [buildSegment_modes_length, hp, hm]
    have hkl : (buildSegment a i).mask.length = 100 := by
      rw [buildSegment_mask_length, hp]
    have hseg : (unitVariant (i + 1) (buildSegment a i)).segment =
        buildSegment a i := unitVariant_segment _ _
    have hvalid : SegValid (unitVariant (i + 1) (buildSegment a i)).segment := by
      rw [hseg]
      refine ⟨?_, ?_, ?_, buildSegment_modes_lt a i hKL, ?_, ?_, ?_⟩
      · rw [buildSegment_n_mode]; norm_num
      · rw [hml, buildSegment_n_mode]
      · rw [hkl, hml, buildSegment_n_mode]
      · rw [buildSegment_n_mode]; norm_num
      · rw [hml]; norm_num
      · rw [hkl]; norm_num
    obtain ⟨bs, he, hd⟩ := roundTripASM _ hvalid
    refine ⟨bs, unitVariant (i + 1) (buildSegment a i), ?_, hd, ?_, ?_, ?_⟩
    · rw [segs_getD a i hi]; exact he
    · rw [hseg, hml]
    · rw [hseg, buildSegment_n_mode]
    · rw [hseg, hkl]

/-- Witness for C6 at a concrete zero-filled archive of shape
(7, 100, 500). -/
theorem claim_batch_witness :
    (scriptOutputs witnessArchive).length = 7 ∧
    ∀ entry ∈ scriptOutputs witnessArchive, ∃ bs s,
      entry.2 = .ok bs ∧ decodeASM bs = .ok s ∧
      s.segment.modes.length = 50000 ∧ s.segment.n_mode = 500 ∧
      s.segment.mask.length = 100 :=
  claim_batch witnessArchive rfl rfl (fun _ _ _ => by norm_num [witnessArchive])

/-- Claim C7: for every 1-based unit index `i` in 1..7, output `i` is
named `M2S{i}.bin`, contains the encoding of the record built from
archive index `i - 1` wrapped in the unit-`i` variant, and that
variant's discriminant is `i - 1`, identifying unit `i`. -/
theorem claim_output_naming (a : Archive) (i : Nat) (h1 : 1 ≤ i) (h7 : i ≤ 7) :
    (scriptOutputs a).getD (i - 1) ("", .error "") =
      ("M2S" ++ toString i ++ ".bin",
        encodeASM (unitVariant i (buildSegment a (i - 1)))) ∧
    (unitVariant i (buildSegment a (i - 1))).tag = i - 1 := by
  interval_cases i <;> exact ⟨rfl, rfl⟩

/-- Witness for C7 at a concrete archive and unit index 3. -/
theorem claim_output_naming_witness :
    (scriptOutputs witnessArchive).getD 2 ("", .error "") =
      ("M2S3.bin",
        encodeASM (unitVariant 3 (buildSegment witnessArchive 2))) ∧
    (unitVariant 3 (buildSegment witnessArchive 2)).tag = 2 :=
  claim_output_naming witnessArchive 3 (by norm_num) (by norm_num)

/-- Claim C8: in the write loop's file-handle trace, after each complete
iteration no handle remains open; the events touching iteration `i`'s
file are exactly its own open–write–close (so no handle is shared across
iterations); and at no point is more than one handle open. -/
theorem claim_write_scoping :
    ((List.range 8).all fun n =>
      handlesAfter (writeLoopTrace.take (3 * n)) == []) ∧
    ((List.range 7).all fun i =>
      writeLoopTrace.filter (touches i) == iterEvents i) ∧
    ((List.range (writeLoopTrace.length + 1)).all fun k =>
      decide ((handlesAfter (writeLoopTrace.take k)).length ≤ 1)) := by
  exact ⟨by decide, by decide, by decide⟩

/-- Counterexample for C9: for an archive whose mode matrices are 1 × 3
(`modes.length = 3`, not divisible by the declared `n_mode = 500`), the
first output's serialization is an error, not bytes — the claim that
such an archive "still serializes without error" is false. -/
theorem claim_no_check_counterexample :
    ((scriptOutputs badArchive).getD 0 ("", .ok [])).2 =
      .error "modes length not divisible by n_mode" := rfl

/-- Claim C9 as amended: every record the script constructs carries the
literal `n_mode = 500` whatever the archive's dimensions, and the script
itself checks nothing before serializing — but the encoder rejects the
mismatched record, so an archive with a mismatched third dimension fails
to serialize instead of serializing without error. -/
theorem claim_n_mode_constant :
    (∀ (a : Archive) (id : Nat), (buildSegment a id).n_mode = 500) ∧
    (∀ (a : Archive) (id : Nat), a.nPoints * a.nModesActual % 500 ≠ 0 →
      ∃ e, encodeSegment (buildSegment a id) = .error e) := by
  refine ⟨fun a id => rfl, fun a id h => ?_⟩
  have h0 : ¬((buildSegment a id).n_mode = 0) := by
    rw [buildSegment_n_mode]; norm_num
  have hc : (buildSegment a id).modes.length % (buildSegment a id).n_mode ≠ 0 := by
    rw [buildSegment_modes_length, buildSegment_n_mode]; exact h
  exact ⟨_, by rw [encodeSegment, if_neg h0, if_pos hc]⟩

/-- Witness for the amended C9 at the concrete mismatched archive. -/
theorem claim_n_mode_constant_witness :
    badArchive.nPoints * badArchive.nModesActual % 500 ≠ 0 ∧
    ∃ e, encodeSegment (buildSegment badArchive 0) = .error e :=
  ⟨by norm_num [badArchive], claim_n_mode_constant.2 badArchive 0 (by norm_num [badArchive])⟩

/-- Claim C10: the script loads the archive and constructs all seven
records before any output file is written, so if the construction phase
ends in an error the whole run ends with that error having written zero
output files. -/
theorem claim_construction_failure (env : Option Archive) (e : String)
    (h : (runSteps env constructionSteps initState).2 = some e) :
    (runSteps env scriptSteps initState).1.files = [] ∧
    (runSteps env scriptSteps initState).2 = some e := by
  rcases hres : runSteps env constructionSteps initState with ⟨st₁, e₁⟩
  rw [hres] at h
  have he : e₁ = some e := h
  subst he
  have happ := runSteps_append_error env constructionSteps writePhaseSteps
    initState st₁ e hres
  rw [show scriptSteps = constructionSteps ++ writePhaseSteps from rfl, happ]
  refine ⟨?_, rfl⟩
  have hnw := runSteps_nonwrite_files env constructionSteps initState
    constructionSteps_nonwrite
  rw [hres] at hnw
  exact hnw

/-- Witness for C10: when the archive load itself fails, the script run
ends with that error and writes no file. -/
theorem claim_construction_failure_witness :
    (runSteps none constructionSteps initState).2 = some "np.load failed" ∧
    (runSteps none scriptSteps initState).1.files = [] ∧
    (runSteps none scriptSteps initState).2 = some "np.load failed" :=
  ⟨rfl, claim_construction_failure none "np.load failed" rfl⟩

end Glao
